import Mathlib

/-!
Verification development for `CreateChangelog.py` (repository
sidc9/ChangelogCreator).  The script turns a git history into a grouped
changelog: it classifies each commit message into a category, resolves a
version label for every commit from tags, groups consecutive commits that
share a version, and serializes the groups to a text file.

The definitions below are a shallow embedding of the Python source.
Strings are modelled by Lean `String`, operating on the underlying
character list so that every definition reduces inside the kernel;
Python `None` becomes `Option`; the places where the Python code can raise
an exception (attribute access on `None`, `KeyError`, indexing an empty
list) are modelled by `Option`/`Except` error results.
-/

namespace CreateChangelog

/-- The constant `CACHE = "createchangelog.cache"` (line 43 of the script). -/
def CACHE : String := "createchangelog.cache"

/-- Python's `str.find(p) == 0` test, i.e. "starts with `p`". -/
def strStartsWith (s p : String) : Bool :=
  s.data.take p.data.length == p.data

/-- Python's `str.lower()` (the commit messages considered are ASCII, where
`Char.toLower` agrees with Python). -/
def strLower (s : String) : String :=
  String.mk (s.data.map Char.toLower)

/-- The characters stripped by Python's `str.strip()` / matched by the
regex class `\s`. -/
def pyIsSpace (c : Char) : Bool :=
  c == ' ' || c == '\t' || c == '\n' || c == '\r' || c == '\x0b' || c == '\x0c'

/-- Python's `s.rstrip().lstrip()` (used on commit messages, line 82, and on
the extracted version marker, line 106). -/
def pstrip (s : String) : String :=
  String.mk (((s.data.dropWhile pyIsSpace).reverse.dropWhile pyIsSpace).reverse)

/-- Python's slice `v[2:-1]` (line 107). -/
def pySliceTwoToLast (s : String) : String :=
  String.mk ((s.data.drop 2).take (s.data.length - 3))

/-- The commit-category enumeration `COMMIT_TYPE` (lines 66-73). -/
inductive COMMIT_TYPE where
  | UNCATEGORIZED
  | ADDED
  | REMOVED
  | FIXED
  | CHANGED
  | DEPRECATED
  | IMPROVED
deriving DecidableEq, Repr

/-- Embeds `COMMIT_TYPE.name` as used by the writer (line 131): the Python enum
member's name. -/
def COMMIT_TYPE.name : COMMIT_TYPE → String
  | .UNCATEGORIZED => "UNCATEGORIZED"
  | .ADDED => "ADDED"
  | .REMOVED => "REMOVED"
  | .FIXED => "FIXED"
  | .CHANGED => "CHANGED"
  | .DEPRECATED => "DEPRECATED"
  | .IMPROVED => "IMPROVED"

/-- A commit as read from the repository: full hash, raw message, and the
committer timestamp (seconds since the Unix epoch, as used by
`time.gmtime(commit.committed_date)`). -/
structure Commit where
  hexsha : String
  message : String
  committedDate : Nat
deriving DecidableEq, Repr

/-- The tag map built at lines 157-160: full commit hash to the tag's name
(the only field of a tag the script reads is `.name`).  The association
list is keyed by distinct hashes. -/
abbrev Tagmap := List (String × String)

/-- Embeds `tagmap.get(hexsha, None)` (line 61). -/
def tagLookup (tm : Tagmap) (hexsha : String) : Option String :=
  (tm.find? (fun p => p.1 == hexsha)).map (fun p => p.2)

/-- Embeds `get_tag` (lines 54-64).  The global `current_tag` is threaded
explicitly: the result is the pair (returned tag, updated `current_tag`);
the global is overwritten only when a tag is found. -/
def get_tag (tm : Tagmap) (current_tag : Option String) (hexsha : String) :
    Option String × Option String :=
  match tagLookup tm hexsha with
  | some t => (some t, some t)
  | none => (none, current_tag)

/-- Embeds `ChangeLogMsg._setType` (lines 109-124): lower-case the message and test
literal prefixes in the written order; first match wins. -/
def setType (msg : String) : COMMIT_TYPE :=
  let m := strLower msg
  if strStartsWith m "add" then .ADDED
  else if strStartsWith m "remove" || strStartsWith m "delete" then .REMOVED
  else if strStartsWith m "fix" || strStartsWith m "bugfix" then .FIXED
  else if strStartsWith m "change" || strStartsWith m "update" then .CHANGED
  else if strStartsWith m "deprecate" then .DEPRECATED
  else if strStartsWith m "improve" then .IMPROVED
  else .UNCATEGORIZED

/-- Embeds `ChangeLogMsg._setVersion` (lines 86-91).  `tag = get_tag(hexsha)`;
`if tag is None: tag = current_tag`; `self.version = tag.name`.  The first
component is the version (`none` models the `AttributeError` raised by
`tag.name` when `tag` is still `None`); the second is the updated
`current_tag`. -/
def setVersion (tm : Tagmap) (current_tag : Option String) (hexsha : String) :
    Option String × Option String :=
  let r := get_tag tm current_tag hexsha
  let tag := match r.1 with
    | some t => some t
    | none => r.2
  (tag, r.2)

/-- A `ChangeLogMsg` after `__init__` has run (lines 75-84). -/
structure ChangeLogMsg where
  type : COMMIT_TYPE
  version : String
  date : String
  signature : String
  msg : String
deriving DecidableEq, Repr

/-- The Gregorian leap-year rule used by `time.gmtime`. -/
def isLeap (y : Nat) : Bool :=
  (y % 4 == 0 && y % 100 != 0) || y % 400 == 0

def daysInYear (y : Nat) : Nat := if isLeap y then 366 else 365

/-- Walk years forward from 1970 consuming whole years of days; the fuel
bounds the iteration count (each step removes at least 365 days, so fuel
`d + 1` is always sufficient). -/
def gmYearAux : Nat → Nat → Nat → Nat × Nat
  | 0, y, d => (y, d)
  | fuel + 1, y, d =>
    if d < daysInYear y then (y, d) else gmYearAux fuel (y + 1) (d - daysInYear y)

def gmYear (d : Nat) : Nat × Nat := gmYearAux (d + 1) 1970 d

def monthLengths (leap : Bool) : List Nat :=
  [31, if leap then 29 else 28, 31, 30, 31, 30, 31, 31, 30, 31, 30, 31]

def gmMonth : List Nat → Nat → Nat → Nat × Nat
  | [], m, d => (m, d)
  | len :: rest, m, d => if d < len then (m, d) else gmMonth rest (m + 1) (d - len)

/-- Embeds `ChangeLogMsg._setDate` (lines 94-96): `time.gmtime` on the committer
timestamp, rendered as `"{}/{}/{}".format(tm_year, tm_mon, tm_mday)`. -/
def formatDate (t : Nat) : String :=
  let days := t / 86400
  let yr := gmYear days
  let mr := gmMonth (monthLengths (isLeap yr.1)) 1 yr.2
  toString yr.1 ++ "/" ++ toString mr.1 ++ "/" ++ toString (mr.2 + 1)

/-- Embeds `ChangeLogMsg.__init__` (lines 76-84): signature is `hexsha[0:8]`, the
date is formatted from the timestamp, the message is stripped, the type is
classified, and the version resolved from the tag state.  The first
component is `none` when `_setVersion` raises (`tag.name` on `None`); the
second component is the updated `current_tag` global. -/
def mkChangeLogMsg (tm : Tagmap) (current_tag : Option String) (commit : Commit) :
    Option ChangeLogMsg × Option String :=
  let signature := String.mk (commit.hexsha.data.take 8)
  let date := formatDate commit.committedDate
  let msg := pstrip commit.message
  let ty := setType msg
  match setVersion tm current_tag commit.hexsha with
  | (none, ct) => (none, ct)
  | (some v, ct) =>
    (some { type := ty, version := v, date := date, signature := signature, msg := msg }, ct)

/-- Embeds `ChangeLogMsg._versionParseFallback` (lines 101-107).  The regex
`(.*)\s(\(v.*\))` is embedded for single-line inputs (every message
considered here; `.` in the pattern does not match a newline): `re.search`
with the leading greedy `(.*)` picks the greatest index `i` such that the
character at `i` is `\s`, the next two characters are `(v`, and some `)`
occurs at an index at least `i + 3`; the greedy inner `.*` then makes
group 2 end at the greatest such `)`.  Group 1 is the text before index
`i`; group 2 is the text from `i + 1` through that `)`.  When the pattern
matches, the message becomes group 1 and the version becomes the stripped
group 2 without its leading `(v` and trailing `)` (`v[2:-1]`). -/
def versionParseFallback (m : ChangeLogMsg) (commitMsg : String) : ChangeLogMsg :=
  let s := commitMsg.data
  let starts := (List.range s.length).filter (fun i =>
    pyIsSpace (s.getD i 'x') && s.getD (i + 1) 'x' == '(' && s.getD (i + 2) 'x' == 'v'
      && (List.range s.length).any (fun j => decide (i + 3 ≤ j) && s.getD j 'x' == ')'))
  match starts.getLast? with
  | none => m
  | some i =>
    let stops := (List.range s.length).filter (fun j =>
      decide (i + 3 ≤ j) && s.getD j 'x' == ')')
    match stops.getLast? with
    | none => m
    | some j =>
      let g1 := String.mk (s.take i)
      let g2 := String.mk ((s.drop (i + 1)).take (j - i))
      { m with msg := g1, version := pySliceTwoToLast (pstrip g2) }

/-- A changelog group: the dict literal built at lines 195-198, with
`"commits"` an (insertion-ordered) association from category to the list
of entries.  (The script runs under Python 2, whose dict iteration order
is implementation defined; none of the properties proved here depend on
the order of the category buckets, so the association list order stands in
for it.) -/
structure Group where
  version : String
  date : String
  commits : List (COMMIT_TYPE × List ChangeLogMsg)
deriving DecidableEq, Repr

abbrev Buckets := List (COMMIT_TYPE × List ChangeLogMsg)

/-- Embeds `elem["commits"].get(t, [])` (line 189). -/
def bucketsGet : Buckets → COMMIT_TYPE → List ChangeLogMsg
  | [], _ => []
  | (k, v) :: rest, t => if k = t then v else bucketsGet rest t

/-- Embeds `elem["commits"][t] = commits` (line 191): replace the value when the
key is present, insert at the end otherwise. -/
def bucketsSet : Buckets → COMMIT_TYPE → List ChangeLogMsg → Buckets
  | [], t, v => [(t, v)]
  | (k, w) :: rest, t, v =>
    if k = t then (k, v) :: rest else (k, w) :: bucketsSet rest t v

/-- Lines 187-192: append the entry to its category bucket of the group. -/
def addMsg (g : Group) (m : ChangeLogMsg) : Group :=
  { g with commits := bucketsSet g.commits m.type (bucketsGet g.commits m.type ++ [m]) }

/-- Lines 195-198: a fresh group holding a single entry. -/
def newGroup (m : ChangeLogMsg) : Group :=
  { version := m.version, date := m.date, commits := [(m.type, [m])] }

/-- One iteration of the grouping part of the main loop (lines 173-199):
read the last group's version (`""` when the list is empty), merge into
the last group on equality, else append a new group.  The `none` result
models the `KeyError` the Python code would raise on
`last_elem["commits"]` when the list is empty and the entry's version is
`""`. -/
def groupStep (groups : List Group) (m : ChangeLogMsg) : Option (List Group) :=
  let ver := match groups.getLast? with
    | some g => g.version
    | none => ""
  if ver == m.version then
    match groups.getLast? with
    | none => none
    | some g => some (groups.dropLast ++ [addMsg g m])
  else
    some (groups ++ [newGroup m])

/-- The grouping loop applied to an already-classified sequence of
entries. -/
def foldGroupSteps (groups : List Group) : List ChangeLogMsg → Option (List Group)
  | [] => some groups
  | m :: rest =>
    match groupStep groups m with
    | none => none
    | some gs => foldGroupSteps gs rest

/-- The command-line arguments (lines 139-145). -/
structure Args where
  max : Option Nat
  detailed : Bool
  no_group : Bool
  verbose : Bool
  output : String
deriving DecidableEq, Repr

/-- Python truthiness of `args.max` (line 152): `None` and `0` are falsy. -/
def maxTruthy : Option Nat → Bool
  | none => false
  | some n => n != 0

/-- Lines 151-155: the commit list handed to the loop, capped at
`args.max` only when that value is truthy. -/
def fcommitsOf (args : Args) (branchCommits : List Commit) : List Commit :=
  if maxTruthy args.max then branchCommits.take (args.max.getD 0) else branchCommits

/-- Lines 182-183: when `--no-group` was passed the entry's version is
overwritten with its signature (the short hash), unconditionally. -/
def noGroupOverride (args : Args) (m : ChangeLogMsg) : ChangeLogMsg :=
  if args.no_group then { m with version := m.signature } else m

/-- The two ways the main loop can raise: `AttributeError` from
`tag.name` on `None` inside `_setVersion`, and the `KeyError` of the
(unreachable) empty-group merge. -/
inductive LoopError where
  | resolutionCrash
  | groupCrash
deriving DecidableEq, Repr

/-- The main loop (lines 166-199): construct the `ChangeLogMsg` (threading
the `current_tag` global), apply the `--no-group` override, and run the
grouping step. -/
def processLoop (args : Args) (tm : Tagmap) :
    Option String → List Group → List Commit → Except LoopError (List Group × Option String)
  | ct, groups, [] => .ok (groups, ct)
  | ct, groups, c :: rest =>
    match mkChangeLogMsg tm ct c with
    | (none, _) => .error .resolutionCrash
    | (some m0, ct') =>
      match groupStep groups (noGroupOverride args m0) with
      | none => .error .groupCrash
      | some groups' => processLoop args tm ct' groups' rest

def isResolutionCrash : Except LoopError (List Group × Option String) → Bool
  | .error .resolutionCrash => true
  | _ => false

/-- Embeds `createChangeLog` (lines 126-136) as the string written to the output
file: per group `"\n##{} ({}):"`, per category bucket `"\n " + name +
":\n"`, per entry `"  * " + msg`, plus `" ({})".format(signature)` when
`--detailed` was passed, then `"\n"`. -/
def createChangeLog (detailed : Bool) (groups : List Group) : String :=
  String.join (groups.map (fun g =>
    "\n##" ++ g.version ++ " (" ++ g.date ++ "):" ++
      String.join (g.commits.map (fun b =>
        "\n " ++ b.1.name ++ ":\n" ++
          String.join (b.2.map (fun c =>
            "  * " ++ c.msg ++ (if detailed then " (" ++ c.signature ++ ")" else "") ++ "\n"))))))

/-- The outcome of the script: `exitWithError` is `sys.exit(1)` after the
error message (line 163-164), before any file is written; `crash` is an
uncaught Python exception; `success` carries the groups and the text
written to the output file. -/
inductive MainResult where
  | exitWithError (msg : String)
  | crash
  | success (groups : List Group) (fileContent : String)
deriving DecidableEq, Repr

def MainResult.exitCode : MainResult → Nat
  | .exitWithError _ => 1
  | .crash => 1
  | .success _ _ => 0

/-- The content written to the output file, `none` when no file is
written. -/
def MainResult.outputFile : MainResult → Option String
  | .success _ s => some s
  | _ => none

def MainResult.groupList : MainResult → Option (List Group)
  | .success gs _ => some gs
  | _ => none

/-- Embeds `__main__` (lines 138-201): select the commits, check that the newest
commit is tagged (this `get_tag` call also initialises the `current_tag`
global), run the loop, and write the changelog.  An empty selected list
crashes on `fcommits[0]`. -/
def main (args : Args) (branchCommits : List Commit) (tm : Tagmap) : MainResult :=
  let fcommits := fcommitsOf args branchCommits
  match fcommits with
  | [] => .crash
  | c0 :: _ =>
    match get_tag tm none c0.hexsha with
    | (none, _) => .exitWithError "error: latest commit needs to be tagged"
    | (some _, ct0) =>
      match processLoop args tm ct0 [] fcommits with
      | .error _ => .crash
      | .ok (groups, _) => .success groups (createChangeLog args.detailed groups)

/-! Specification-side definitions, rendered from the specification's own
wording, to be compared with the embedded code. -/

/-- The classifier's prefix table in the specification's priority order:
"add"→ADDED, "remove"/"delete"→REMOVED, "fix"/"bugfix"→FIXED,
"change"/"update"→CHANGED, "deprecate"→DEPRECATED, "improve"→IMPROVED. -/
def prefixTable : List (String × COMMIT_TYPE) :=
  [("add", .ADDED), ("remove", .REMOVED), ("delete", .REMOVED),
   ("fix", .FIXED), ("bugfix", .FIXED), ("change", .CHANGED),
   ("update", .CHANGED), ("deprecate", .DEPRECATED), ("improve", .IMPROVED)]

/-- First match wins over the table; no match yields UNCATEGORIZED. -/
def firstMatch (m : String) : List (String × COMMIT_TYPE) → COMMIT_TYPE
  | [] => .UNCATEGORIZED
  | (p, t) :: rest => if strStartsWith m p then t else firstMatch m rest

/-- The classifier as the specification states it: lower-case the message,
then take the first matching prefix of the table. -/
def classifySpec (msg : String) : COMMIT_TYPE :=
  firstMatch (strLower msg) prefixTable

/-- The version-resolution policy as the specification orders it: (a) a
tag pointing exactly at this commit; (b) the nearest preceding
(already-seen) tag; (c) an inline message-embedded version token; (d) in
no-group mode the short hash; (e) otherwise the literal "untagged". -/
def resolvePolicySpec (tm : Tagmap) (prevTag : Option String)
    (inlineTok : Option String) (noGroup : Bool) (shortHash : String)
    (hexsha : String) : String :=
  match tagLookup tm hexsha with
  | some t => t
  | none =>
    match prevTag with
    | some t => t
    | none =>
      match inlineTok with
      | some v => v
      | none => if noGroup then shortHash else "untagged"

/-- The grouping rule as the specification states it: append to the
current group while the version is unchanged, open a new group at a
version change. -/
def groupCont (g : Group) : List ChangeLogMsg → List Group
  | [] => [g]
  | m :: rest =>
    if g.version == m.version then groupCont (addMsg g m) rest
    else g :: groupCont (newGroup m) rest

def groupsSpec : List ChangeLogMsg → List Group
  | [] => []
  | m :: rest => groupCont (newGroup m) rest

/-- Collapse adjacent equal labels of a list (the expected sequence of
group labels). -/
def dedupAdjacent : List String → List String
  | [] => []
  | [v] => [v]
  | v :: w :: rest =>
    if v == w then dedupAdjacent (w :: rest) else v :: dedupAdjacent (w :: rest)

/-- Whether `pat` occurs as a contiguous substring of `s`. -/
def listContainsSub (pat s : List Char) : Bool :=
  (List.range (s.length + 1)).any (fun i => (s.drop i).take pat.length == pat)

/-- The per-run outcome of the incremental-cache variant. -/
structure IncrementalResult where
  message : Option String
  groups : List Group
  outputWritten : Bool
  cacheAfter : Option String
deriving DecidableEq, Repr

/-- The fresh part of the history: the commits strictly newer than the
cached hash (iteration stops at the first commit whose hash equals the
cached one). -/
def takeUntilCached (cached : Option String) : List Commit → List Commit
  | [] => []
  | c :: rest =>
    if some c.hexsha == cached then [] else c :: takeUntilCached cached rest

/-- Modelled from the spec: the incremental-cache variant of the main
program is not present under src/ — only the cache filename constant
`CACHE` (src/CreateChangelog.py line 43) is.  Following specification
sections 4.5, 7(b) and 8: read the previously stored hash; when it equals
the newest commit's hash, print "already up to date" and stop, emitting no
groups and leaving the output file untouched; otherwise process only the
commits newer than the cached hash through the same pipeline as the batch
variant, write the output, and overwrite the cache with the full hash of
the newest processed commit. -/
def runIncremental (args : Args) (cached : Option String)
    (branchCommits : List Commit) (tm : Tagmap) : Option IncrementalResult :=
  match branchCommits with
  | [] => none
  | c0 :: rest =>
    if cached == some c0.hexsha then
      some { message := some "already up to date", groups := [],
             outputWritten := false, cacheAfter := cached }
    else
      match get_tag tm none c0.hexsha with
      | (none, _) => none
      | (some _, ct0) =>
        match processLoop args tm ct0 [] (takeUntilCached cached (c0 :: rest)) with
        | .error _ => none
        | .ok (groups, _) =>
          some { message := none, groups := groups, outputWritten := true,
                 cacheAfter := some c0.hexsha }

/-! Concrete inputs used by the scenario checks, counterexamples and
witnesses. -/

/-- Default arguments: no cap, no detail, grouping on, quiet. -/
def args0 : Args :=
  { max := none, detailed := false, no_group := false, verbose := false,
    output := "changelog.txt" }

def argsNG : Args := { args0 with no_group := true }

/-- Newest commit, tagged v2.0. -/
def cT1 : Commit := { hexsha := "a1a1a1a1a1", message := "Add feature", committedDate := 0 }

/-- Middle commit, untagged. -/
def cT2 : Commit := { hexsha := "b2b2b2b2b2", message := "Update docs", committedDate := 0 }

/-- Oldest commit, tagged v1.0. -/
def cT3 : Commit := { hexsha := "c3c3c3c3c3", message := "Fix crash", committedDate := 0 }

def tagmapEx : Tagmap := [("a1a1a1a1a1", "v2.0"), ("c3c3c3c3c3", "v1.0")]

/-- An untagged commit (for the fail-fast check). -/
def cU : Commit := { hexsha := "d4d4d4d4d4", message := "Add thing", committedDate := 0 }

/-- A commit whose message carries an inline version marker. -/
def cFix : Commit :=
  { hexsha := "f1f1f1f1f1", message := "Fix null pointer bug (v1.2.3)", committedDate := 0 }

def mT1 : ChangeLogMsg :=
  { type := .ADDED, version := "v2.0", date := "1970/1/1",
    signature := "a1a1a1a1", msg := "Add feature" }

def mT2 : ChangeLogMsg :=
  { type := .CHANGED, version := "v2.0", date := "1970/1/1",
    signature := "b2b2b2b2", msg := "Update docs" }

def mT3 : ChangeLogMsg :=
  { type := .FIXED, version := "v1.0", date := "1970/1/1",
    signature := "c3c3c3c3", msg := "Fix crash" }

/-- The entry the pipeline builds from `cFix` when the running tag is
"v9": the category is FIXED but the message keeps the inline marker and
the version comes from the tag state. -/
def mFixPipeline : ChangeLogMsg :=
  { type := .FIXED, version := "v9", date := "1970/1/1",
    signature := "f1f1f1f1", msg := "Fix null pointer bug (v1.2.3)" }

/-- A sample group for the writer check. -/
def mWr : ChangeLogMsg :=
  { type := .FIXED, version := "v1.0", date := "1970/1/1",
    signature := "deadbeef", msg := "Fix bug" }

def gWr : Group :=
  { version := "v1.0", date := "1970/1/1", commits := [(.FIXED, [mWr])] }

/-! Helper lemmas shared by the claim theorems. -/

/-- The running tag always resolves when it starts resolved: with
`current_tag = some t` the construction of a `ChangeLogMsg` succeeds and
leaves the running tag resolved. -/
theorem mk_total (tm : Tagmap) (t : String) (c : Commit) :
    ∃ m u, mkChangeLogMsg tm (some t) c = (some m, some u) := by
  cases h : tagLookup tm c.hexsha with
  | some u =>
    exact ⟨{ type := setType (pstrip c.message), version := u,
             date := formatDate c.committedDate,
             signature := String.mk (c.hexsha.data.take 8),
             msg := pstrip c.message }, u,
           by simp [mkChangeLogMsg, setVersion, get_tag, h]⟩
  | none =>
    exact ⟨{ type := setType (pstrip c.message), version := t,
             date := formatDate c.committedDate,
             signature := String.mk (c.hexsha.data.take 8),
             msg := pstrip c.message }, t,
           by simp [mkChangeLogMsg, setVersion, get_tag, h]⟩

theorem bucketsGet_bucketsSet (b : Buckets) (k : COMMIT_TYPE)
    (v : List ChangeLogMsg) (t : COMMIT_TYPE) :
    bucketsGet (bucketsSet b k v) t = if k = t then v else bucketsGet b t := by
  induction b with
  | nil => simp [bucketsSet, bucketsGet]
  | cons p rest ih =>
    obtain ⟨k', w⟩ := p
    by_cases hk : k' = k
    · subst hk
      simp [bucketsSet, bucketsGet]
      split_ifs <;> simp_all [bucketsGet]
    · simp only [bucketsSet, if_neg hk, bucketsGet, ih]
      split_ifs <;> simp_all

/-- Appending an entry to a group appends it at the end of its category
bucket and leaves every other bucket unchanged. -/
theorem addMsg_bucketsGet (g : Group) (m : ChangeLogMsg) (t : COMMIT_TYPE) :
    bucketsGet (addMsg g m).commits t =
      bucketsGet g.commits t ++ (if m.type = t then [m] else []) := by
  simp only [addMsg, bucketsGet_bucketsSet]
  by_cases h : m.type = t
  · subst h; simp
  · simp [h]

/-- The accumulator-passing grouping loop agrees with the direct
recursion: starting from a non-empty group list it extends the last group
and then continues. -/
theorem foldGroupSteps_concat (msgs : List ChangeLogMsg) :
    ∀ (gs : List Group) (g : Group),
      foldGroupSteps (gs ++ [g]) msgs = some (gs ++ groupCont g msgs) := by
  induction msgs with
  | nil => intro gs g; simp [foldGroupSteps, groupCont]
  | cons m rest ih =>
    intro gs g
    simp only [foldGroupSteps, groupStep, List.getLast?_concat, List.dropLast_concat]
    by_cases hv : (g.version == m.version) = true
    · rw [if_pos hv]
      show foldGroupSteps (gs ++ [addMsg g m]) rest = _
      rw [ih gs (addMsg g m)]
      simp only [groupCont]
      rw [if_pos hv]
    · rw [if_neg hv]
      show foldGroupSteps ((gs ++ [g]) ++ [newGroup m]) rest = _
      rw [ih (gs ++ [g]) (newGroup m)]
      simp only [groupCont]
      rw [if_neg hv]
      simp [List.append_assoc]

/-- The label sequence produced by the specification's grouping rule
collapses exactly the adjacent duplicates of the entry label sequence. -/
theorem groupCont_versions (msgs : List ChangeLogMsg) :
    ∀ g : Group, (groupCont g msgs).map (fun x => x.version)
      = dedupAdjacent (g.version :: msgs.map (fun m => m.version)) := by
  induction msgs with
  | nil => intro g; simp [groupCont, dedupAdjacent]
  | cons m rest ih =>
    intro g
    simp only [groupCont, List.map_cons, dedupAdjacent]
    by_cases hv : (g.version == m.version) = true
    · rw [if_pos hv, if_pos hv, ih (addMsg g m)]
      have hg : g.version = m.version := by simpa using hv
      show dedupAdjacent (g.version :: _) = _
      rw [hg]
    · rw [if_neg hv, if_neg hv, List.map_cons, ih (newGroup m)]
      rfl

/-! The claim theorems. -/

/-- C7: the classifier lower-cases the message and tests the fixed literal
prefixes in the priority order add, remove, delete, fix, bugfix, change,
update, deprecate, improve, the first match winning and no match giving
UNCATEGORIZED; a message beginning case-insensitively with "add" is
classified ADDED, and classification leaves the (stripped) message text
unchanged. -/
theorem claim7_classifier : ∀ msg : String,
    setType msg = classifySpec msg
    ∧ (strStartsWith (strLower msg) "add" = true → setType msg = COMMIT_TYPE.ADDED)
    ∧ (∀ (tm : Tagmap) (ct : Option String) (c : Commit) (m : ChangeLogMsg)
        (ct' : Option String),
        mkChangeLogMsg tm ct c = (some m, ct') → m.msg = pstrip c.message) := by
  intro msg
  refine ⟨?_, ?_, ?_⟩
  · simp only [setType, classifySpec, prefixTable, firstMatch]
    by_cases h1 : strStartsWith (strLower msg) "add" = true
    · simp [h1]
    by_cases h2 : strStartsWith (strLower msg) "remove" = true
    · simp [h1, h2]
    by_cases h3 : strStartsWith (strLower msg) "delete" = true
    · simp [h1, h2, h3]
    by_cases h4 : strStartsWith (strLower msg) "fix" = true
    · simp [h1, h2, h3, h4]
    by_cases h5 : strStartsWith (strLower msg) "bugfix" = true
    · simp [h1, h2, h3, h4, h5]
    by_cases h6 : strStartsWith (strLower msg) "change" = true
    · simp [h1, h2, h3, h4, h5, h6]
    by_cases h7 : strStartsWith (strLower msg) "update" = true
    · simp [h1, h2, h3, h4, h5, h6, h7]
    by_cases h8 : strStartsWith (strLower msg) "deprecate" = true
    · simp [h1, h2, h3, h4, h5, h6, h7, h8]
    by_cases h9 : strStartsWith (strLower msg) "improve" = true
    · simp [h1, h2, h3, h4, h5, h6, h7, h8, h9]
    simp [h1, h2, h3, h4, h5, h6, h7, h8, h9]
  · intro h
    simp [setType, h]
  · intro tm ct c m ct' h
    simp only [mkChangeLogMsg] at h
    rcases hv : setVersion tm ct c.hexsha with ⟨ov, ct2⟩
    rw [hv] at h
    cases ov with
    | none => simp at h
    | some v =>
      simp only [Prod.mk.injEq, Option.some.inj] at h
      obtain ⟨h1, h2⟩ := h
      rw [← Option.some_inj.mp h1]

/-- C3: version resolution — under the loop invariant that a tag has been
seen (`current_tag = some t`, established by the startup check), the
resolution of `_setVersion` agrees with the full specification policy
chain (exact tag, else nearest preceding tag, else inline token, else
hash/"untagged", the later fallbacks being unreachable because the
preceding-tag step always succeeds); and on the three-commit scenario
(C1 tagged v2.0, C2 untagged, C3 tagged v1.0) grouping yields exactly the
two groups [v2.0: C1,C2][v1.0: C3] in order. -/
theorem claim3_resolution_policy :
    (∀ (tm : Tagmap) (t hexsha short : String) (inlineTok : Option String)
      (noGroup : Bool),
      (setVersion tm (some t) hexsha).1
        = some (resolvePolicySpec tm (some t) inlineTok noGroup short hexsha))
    ∧ (main args0 [cT1, cT2, cT3] tagmapEx).groupList =
        some [{ version := "v2.0", date := "1970/1/1",
                commits := [(.ADDED, [mT1]), (.CHANGED, [mT2])] },
              { version := "v1.0", date := "1970/1/1",
                commits := [(.FIXED, [mT3])] }] := by
  constructor
  · intro tm t hexsha short inlineTok noGroup
    cases h : tagLookup tm hexsha <;>
      simp [setVersion, get_tag, resolvePolicySpec, h]
  · decide

/-- The main loop reads the arguments only through the `--no-group`
flag. -/
theorem processLoop_args_no_group (a1 a2 : Args) (h : a1.no_group = a2.no_group)
    (tm : Tagmap) : ∀ (cs : List Commit) (ct : Option String) (gs : List Group),
    processLoop a1 tm ct gs cs = processLoop a2 tm ct gs cs := by
  intro cs
  induction cs with
  | nil => intro ct gs; rfl
  | cons c rest ih =>
    intro ct gs
    have hng : ∀ m, noGroupOverride a1 m = noGroupOverride a2 m := by
      intro m; simp [noGroupOverride, h]
    simp only [processLoop, hng, ih]

/-- C9: passing `--max 0` selects the very same commit list as omitting
`--max` (the cap applies only when the parsed value is truthy), and the
whole run is unchanged. -/
theorem claim9_max_zero (args : Args) (commits : List Commit) (tm : Tagmap) :
    main { args with max := some 0 } commits tm
      = main { args with max := none } commits tm
    ∧ fcommitsOf { args with max := some 0 } commits = commits := by
  have h0 : fcommitsOf { args with max := some 0 } commits = commits := by
    simp [fcommitsOf, maxTruthy]
  have hn : fcommitsOf { args with max := none } commits = commits := by
    simp [fcommitsOf, maxTruthy]
  refine ⟨?_, h0⟩
  have hpl := processLoop_args_no_group { args with max := some 0 }
    { args with max := none } rfl tm
  simp only [main, h0, hn, hpl]

/-- C10: under the startup precondition (the newest commit carries a tag,
so the loop starts with `current_tag = some t`), version resolution is
total along the whole loop: the `tag.name` access of `_setVersion` can
never be reached with `tag = None`. -/
theorem claim10_resolution_total (args : Args) (tm : Tagmap) :
    ∀ (commits : List Commit) (t : String) (groups : List Group),
      isResolutionCrash (processLoop args tm (some t) groups commits) = false := by
  intro commits
  induction commits with
  | nil => intro t groups; simp [processLoop, isResolutionCrash]
  | cons c rest ih =>
    intro t groups
    obtain ⟨m, u, hmk⟩ := mk_total tm t c
    simp only [processLoop, hmk]
    cases hg : groupStep groups (noGroupOverride args m) with
    | none => simp [isResolutionCrash]
    | some gs => exact ih u gs

/-- C6: for every classified input sequence (all resolved versions being
non-empty, as tag names and short hashes are), the grouping loop of lines
173-199 computes exactly the specification recursion: groups appear in
input (newest-first) order, a new group opens precisely at a version
change, consecutive same-version entries merge into one group, and each
entry is appended at the end of its category bucket, keeping insertion
order; the group-label sequence is the entry-label sequence with adjacent
duplicates collapsed. -/
theorem claim6_grouping (msgs : List ChangeLogMsg)
    (h : ∀ m ∈ msgs, m.version ≠ "") :
    foldGroupSteps [] msgs = some (groupsSpec msgs)
    ∧ (groupsSpec msgs).map (fun g => g.version)
        = dedupAdjacent (msgs.map (fun m => m.version))
    ∧ ∀ (g : Group) (m : ChangeLogMsg) (t : COMMIT_TYPE),
        bucketsGet (addMsg g m).commits t =
          bucketsGet g.commits t ++ (if m.type = t then [m] else []) := by
  refine ⟨?_, ?_, fun g m t => addMsg_bucketsGet g m t⟩
  · cases msgs with
    | nil => rfl
    | cons m rest =>
      have hm : m.version ≠ "" := h m (by simp)
      have hv : ("" == m.version) = false := by
        cases hb : ("" == m.version) with
        | false => rfl
        | true => exact absurd (eq_of_beq hb).symm hm
      have hstep : groupStep [] m = some [newGroup m] := by
        simp [groupStep, hv]
      show (match groupStep [] m with
            | none => none
            | some gs => foldGroupSteps gs rest) = _
      rw [hstep]
      show foldGroupSteps ([] ++ [newGroup m]) rest = _
      rw [foldGroupSteps_concat rest [] (newGroup m)]
      rfl
  · cases msgs with
    | nil => rfl
    | cons m rest =>
      show (groupCont (newGroup m) rest).map _ = _
      rw [groupCont_versions rest (newGroup m)]
      rfl

theorem claim6_grouping_witness :
    (∀ m ∈ [mT1, mT2, mT3], m.version ≠ "")
    ∧ (foldGroupSteps [] [mT1, mT2, mT3] = some (groupsSpec [mT1, mT2, mT3])
       ∧ (groupsSpec [mT1, mT2, mT3]).map (fun g => g.version)
           = dedupAdjacent ([mT1, mT2, mT3].map (fun m => m.version))
       ∧ ∀ (g : Group) (m : ChangeLogMsg) (t : COMMIT_TYPE),
           bucketsGet (addMsg g m).commits t =
             bucketsGet g.commits t ++ (if m.type = t then [m] else [])) :=
  ⟨by decide, claim6_grouping [mT1, mT2, mT3] (by decide)⟩

/-- C5: when the newest selected commit has no tag pointing at it, the run
reports "error: latest commit needs to be tagged", terminates with exit
status 1 and writes no output file; a successful run terminates with exit
status 0. -/
theorem claim5_fail_fast (args : Args) (commits : List Commit) (tm : Tagmap)
    (c0 : Commit) (rest : List Commit)
    (h1 : fcommitsOf args commits = c0 :: rest)
    (h2 : tagLookup tm c0.hexsha = none)
    (h3 : args.no_group = false) :
    main args commits tm = .exitWithError "error: latest commit needs to be tagged"
    ∧ (main args commits tm).exitCode = 1
    ∧ (main args commits tm).outputFile = none
    ∧ ∀ (args2 : Args) (commits2 : List Commit) (tm2 : Tagmap) (gs : List Group)
        (out : String),
        main args2 commits2 tm2 = .success gs out →
        (main args2 commits2 tm2).exitCode = 0 := by
  have hm : main args commits tm
      = .exitWithError "error: latest commit needs to be tagged" := by
    simp [main, h1, get_tag, h2]
  refine ⟨hm, by rw [hm]; rfl, by rw [hm]; rfl, ?_⟩
  intro args2 commits2 tm2 gs out hsuc
  rw [hsuc]
  rfl

theorem claim5_fail_fast_witness :
    fcommitsOf args0 [cU] = cU :: ([] : List Commit)
    ∧ tagLookup tagmapEx cU.hexsha = none
    ∧ args0.no_group = false
    ∧ (main args0 [cU] tagmapEx
         = .exitWithError "error: latest commit needs to be tagged"
       ∧ (main args0 [cU] tagmapEx).exitCode = 1
       ∧ (main args0 [cU] tagmapEx).outputFile = none
       ∧ ∀ (args2 : Args) (commits2 : List Commit) (tm2 : Tagmap) (gs : List Group)
           (out : String),
           main args2 commits2 tm2 = .success gs out →
           (main args2 commits2 tm2).exitCode = 0) :=
  ⟨by decide, by decide, by decide,
   claim5_fail_fast args0 [cU] tagmapEx cU [] (by decide) (by decide) (by decide)⟩

/-- C8 (divergence record): the writer emits the group header as
`##<version> (<date>):` with no space after `##` — the script's own
docstring (line 9) and the specification both show `## <version> (<date>):`
— while the rest of the shape (one sub-header line per category bucket,
one bullet line per entry, the short hash appended exactly when detail
mode is on) is as described; the substring `## ` never occurs in the
output. -/
theorem claim8_writer_format :
    createChangeLog false [gWr] = "\n##v1.0 (1970/1/1):\n FIXED:\n  * Fix bug\n"
    ∧ createChangeLog true [gWr]
        = "\n##v1.0 (1970/1/1):\n FIXED:\n  * Fix bug (deadbeef)\n"
    ∧ listContainsSub "## ".data
        ("\n##v1.0 (1970/1/1):\n FIXED:\n  * Fix bug\n").data = false
    ∧ listContainsSub "## ".data
        ("\n##v1.0 (1970/1/1):\n FIXED:\n  * Fix bug (deadbeef)\n").data = false := by
  decide

/-- C2 (counterexample): on the commit message
"Fix null pointer bug (v1.2.3)" the classification pipeline
(`ChangeLogMsg.__init__`) yields category FIXED but leaves the inline
marker in the message and takes the version from the tag state ("v9"
here), because `_versionParseFallback` is never invoked: the cleaned
message is not "Fix null pointer bug" and the version is not "1.2.3". -/
theorem claim2_counterexample :
    (mkChangeLogMsg [] (some "v9") cFix).1 = some mFixPipeline
    ∧ mFixPipeline.type = COMMIT_TYPE.FIXED
    ∧ mFixPipeline.msg = "Fix null pointer bug (v1.2.3)"
    ∧ (mFixPipeline.msg == "Fix null pointer bug") = false
    ∧ (mFixPipeline.version == "1.2.3") = false := by
  decide

/-- C2 (amended): the helper `_versionParseFallback`, when applied, does
strip a trailing "(vX.Y.Z)" marker and store the enclosed token — on
"Fix null pointer bug (v1.2.3)" it produces message "Fix null pointer
bug" and version "1.2.3" — but the constructor never calls it, so the
pipeline entry for that message has category FIXED, the message kept
verbatim, and a tag-derived version. -/
theorem claim2_amended_fallback :
    versionParseFallback mFixPipeline "Fix null pointer bug (v1.2.3)"
      = { mFixPipeline with msg := "Fix null pointer bug", version := "1.2.3" }
    ∧ (mkChangeLogMsg [] (some "v9") cFix).1 = some mFixPipeline
    ∧ mFixPipeline.type = COMMIT_TYPE.FIXED := by
  decide

/-- C4 (counterexample): with `--no-group`, even a commit carrying a tag
(here cT1, tagged v2.0) is labelled with its short hash, not the tag
name: the override of lines 182-183 is unconditional. -/
theorem claim4_counterexample :
    tagLookup tagmapEx cT1.hexsha = some "v2.0"
    ∧ (main argsNG [cT1] tagmapEx).groupList =
        some [{ version := "a1a1a1a1", date := "1970/1/1",
                commits := [(.ADDED, [{ mT1 with version := "a1a1a1a1" }])] }]
    ∧ (("a1a1a1a1" : String) == "v2.0") = false := by
  decide

/-- C4 (amended): when `--no-group` is passed the short commit hash is
used as the version label for every commit, including those that resolve
to a concrete tagged version; on the three-commit scenario every group is
labelled by a hash and no merging by tag happens. -/
theorem claim4_amended (args : Args) (m : ChangeLogMsg)
    (h : args.no_group = true) :
    (noGroupOverride args m).version = m.signature
    ∧ (main argsNG [cT1, cT2, cT3] tagmapEx).groupList =
        some [{ version := "a1a1a1a1", date := "1970/1/1",
                commits := [(.ADDED, [{ mT1 with version := "a1a1a1a1" }])] },
              { version := "b2b2b2b2", date := "1970/1/1",
                commits := [(.CHANGED, [{ mT2 with version := "b2b2b2b2" }])] },
              { version := "c3c3c3c3", date := "1970/1/1",
                commits := [(.FIXED, [{ mT3 with version := "c3c3c3c3" }])] }] :=
  ⟨by simp [noGroupOverride, h], by decide⟩

theorem claim4_amended_witness :
    argsNG.no_group = true
    ∧ ((noGroupOverride argsNG mT1).version = mT1.signature
       ∧ (main argsNG [cT1, cT2, cT3] tagmapEx).groupList =
           some [{ version := "a1a1a1a1", date := "1970/1/1",
                   commits := [(.ADDED, [{ mT1 with version := "a1a1a1a1" }])] },
                 { version := "b2b2b2b2", date := "1970/1/1",
                   commits := [(.CHANGED, [{ mT2 with version := "b2b2b2b2" }])] },
                 { version := "c3c3c3c3", date := "1970/1/1",
                   commits := [(.FIXED, [{ mT3 with version := "c3c3c3c3" }])] }]) :=
  ⟨by decide, claim4_amended argsNG mT1 (by decide)⟩

/-- C1: in incremental-cache mode (modelled from the spec — the cache
variant of the main program is not under src/, only the `CACHE` constant
is), when the stored hash equals the newest commit's hash the run prints
"already up to date", emits no groups and leaves the output file
untouched; and every run that does write output overwrites the cache with
the full hash of the newest processed commit. -/
theorem claim1_cache (args : Args) (tm : Tagmap) (cached : Option String)
    (c0 : Commit) (rest : List Commit) (h : cached = some c0.hexsha) :
    runIncremental args cached (c0 :: rest) tm =
      some { message := some "already up to date", groups := [],
             outputWritten := false, cacheAfter := cached }
    ∧ ∀ (cached2 : Option String) (r : IncrementalResult),
        runIncremental args cached2 (c0 :: rest) tm = some r →
        r.outputWritten = true → r.cacheAfter = some c0.hexsha := by
  constructor
  · subst h
    simp [runIncremental]
  · intro cached2 r hr hw
    simp only [runIncremental] at hr
    by_cases hc : (cached2 == some c0.hexsha) = true
    · rw [if_pos hc] at hr
      rw [← Option.some_inj.mp hr] at hw
      simp at hw
    · rw [if_neg hc] at hr
      split at hr
      · exact absurd hr (by simp)
      · split at hr
        · exact absurd hr (by simp)
        · rw [← Option.some_inj.mp hr]

theorem claim1_cache_witness :
    some cT1.hexsha = some cT1.hexsha
    ∧ (runIncremental args0 (some cT1.hexsha) (cT1 :: [cT2, cT3]) tagmapEx =
        some { message := some "already up to date", groups := [],
               outputWritten := false, cacheAfter := some cT1.hexsha }
       ∧ ∀ (cached2 : Option String) (r : IncrementalResult),
           runIncremental args0 cached2 (cT1 :: [cT2, cT3]) tagmapEx = some r →
           r.outputWritten = true → r.cacheAfter = some cT1.hexsha) :=
  ⟨rfl, claim1_cache args0 tagmapEx (some cT1.hexsha) cT1 [cT2, cT3] rfl⟩

theorem claim7_classifier_witness :
    setType "Add feature" = classifySpec "Add feature"
    ∧ setType "Add feature" = COMMIT_TYPE.ADDED
    ∧ mT1.msg = pstrip cT1.message :=
  ⟨(claim7_classifier "Add feature").1,
   (claim7_classifier "Add feature").2.1 (by decide),
   (claim7_classifier "Add feature").2.2 tagmapEx (some "v2.0") cT1 mT1
     (some "v2.0") (by decide)⟩

end CreateChangelog
